import Mathlib

/-!
# Verification of the ledmatrix-leaderboard standings fetch pipeline

A shallow embedding, in Lean 4, of the data-fetching core of the
`ledmatrix-leaderboard` repository (`src/data_fetcher.py`), together with
theorems settling the specification claims about it.

Modelling conventions:
* Python `str` values are Lean `String`s; splitting and scanning is done on
  their character lists (`String.data`).  Python's built-in `int(...)` applied
  to a string is modelled for ASCII inputs (whitespace stripping, optional
  sign, digits with single underscores between digits); Python additionally
  accepts non-ASCII decimal digits and whitespace, which no input in this
  code base exercises.
* Python floats are modelled as exact rationals (`Rat`).
* A `dict.get(k, default)` access is modelled as an `Option` field plus
  `Option.getD`.
* The HTTP layer (`requests.get` / `.json()`) is modelled as an oracle in an
  environment record: `none` stands for a raised exception
  (network error, timeout, non-2xx status via `raise_for_status`, or
  malformed JSON), `some r` for a successfully decoded JSON response.
* The cache manager is modelled as a partial map from cache keys to payloads;
  `None`/absent (and the falsy empty dict) become `none`.
* Each fetch strategy returns, besides its standings list, the list of cache
  writes it performed, the number of `increment_api_counter` calls it made,
  and the query parameters of the standings request it issued (if any), so
  that claims about caching and outgoing requests are statable.
-/

namespace Leaderboard

/-! ## Python string primitives -/

/-- ASCII whitespace recognized by Python's `int(str)` stripping step. -/
def isPySpace (c : Char) : Bool :=
  c = ' ' || c = '\t' || c = '\n' || c = '\r' || c = '\x0b' || c = '\x0c'

/-- Python `str.lower()` on an ASCII character. -/
def pyLower (c : Char) : Char :=
  if 'A' ≤ c && c ≤ 'Z' then Char.ofNat (c.toNat + 32) else c

/-- Python's substring membership test `needle in hay`. -/
def pyIn (needle : List Char) : List Char → Bool
  | [] => needle == []
  | c :: t => needle.isPrefixOf (c :: t) || pyIn needle t

/-- Python `str.split('-')`: cut the character list at every `'-'`,
keeping empty pieces (`"a--b".split('-') == ['a','','b']`,
`"".split('-') == ['']`). -/
def splitDash : List Char → List (List Char)
  | [] => [[]]
  | c :: rest =>
    match splitDash rest with
    | [] => [[]]
    | p :: ps => if c = '-' then [] :: p :: ps else (c :: p) :: ps

/-- Strip leading and trailing whitespace, as Python `int(str)` does before
parsing. -/
def pyStrip (cs : List Char) : List Char :=
  ((cs.dropWhile isPySpace).reverse.dropWhile isPySpace).reverse

/-- Scan the remaining characters of a Python integer literal after its first
digit, accumulating the value.  A single `'_'` is allowed between two digits
(`int("1_0") == 10`); a trailing, leading or doubled underscore is an error. -/
def digitTail : List Char → Nat → Option Nat
  | [], acc => some acc
  | c :: rest, acc =>
    if c = '_' then
      match rest with
      | [] => none
      | d :: rest2 =>
        if d.isDigit then digitTail rest2 (10 * acc + (d.toNat - 48)) else none
    else if c.isDigit then digitTail rest (10 * acc + (c.toNat - 48)) else none

/-- Parse the digit part of a Python integer literal (no sign, no padding). -/
def pyIntCore (cs : List Char) : Option Nat :=
  match cs with
  | [] => none
  | c :: rest => if c.isDigit then digitTail rest (c.toNat - 48) else none

/-- Python `int(s)` on an ASCII string: `some n` when the conversion
succeeds, `none` when it raises `ValueError`. -/
def pyInt (cs : List Char) : Option Int :=
  let t := pyStrip cs
  match t with
  | [] => none
  | c :: rest =>
    if c = '+' then (pyIntCore rest).map (fun n => (n : Int))
    else if c = '-' then (pyIntCore rest).map (fun n => -(n : Int))
    else (pyIntCore t).map (fun n => (n : Int))

/-- Python `int(x)` on a number: truncation toward zero. -/
def pyTrunc (x : Rat) : Int :=
  if 0 ≤ x then x.floor else x.ceil

/-! ## The record parser (`DataFetcher._parse_record`, lines 628-648)

The Python body initializes `wins = losses = ties = win_percentage = 0`,
splits on `'-'`, and inside a `try` block assigns `wins`, `losses` and
(for exactly three parts) `ties` in order; a `ValueError` aborts the block
but keeps the assignments already made, and `win_percentage` is only
computed after all conversions succeeded.  The match below reproduces that
partial-assignment semantics branch by branch. -/

/-- `DataFetcher._parse_record`: parse a record string such as `"12-1"` or
`"10-2-1"` into `(wins, losses, ties, win_percentage)`. -/
def parse_record (record_summary : String) : Int × Int × Int × Rat :=
  match splitDash record_summary.data with
  | p0 :: p1 :: rest =>
    (match pyInt p0 with
     | none => (0, 0, 0, 0)
     | some wins =>
       match pyInt p1 with
       | none => (wins, 0, 0, 0)
       | some losses =>
         match rest with
         | [p2] =>
           (match pyInt p2 with
            | none => (wins, losses, 0, 0)
            | some ties =>
              let total_games := wins + losses + ties
              (wins, losses, ties,
                if 0 < total_games then (wins : Rat) / (total_games : Rat) else 0))
         | _ =>
           let total_games := wins + losses
           (wins, losses, 0,
             if 0 < total_games then (wins : Rat) / (total_games : Rat) else 0))
  | _ => (0, 0, 0, 0)

/-- Value of a run of decimal digits, most significant first. -/
def digitsVal (ds : List Char) : Nat :=
  ds.foldl (fun a c => 10 * a + (c.toNat - 48)) 0

/-! ## Data model

The dictionaries appearing in `src/data_fetcher.py` are given one structure
each; a field read with `dict.get(k, default)` in the source becomes an
`Option` field read with `.getD default`. -/

/-- One team dictionary as appended to `standings` by the fetch strategies.
`rank`/`record_summary`/`ranking_name` are only set by some strategies, so
they are `Option` fields defaulting to `none` (absent key).  `wins`, `losses`
and `ties` are rationals because `_fetch_teams_data` stores the raw stat
values (Python floats) while the other strategies store integers. -/
structure TeamEntry where
  name : String
  id : Option String
  abbreviation : String
  rank : Option Nat := none
  wins : Rat
  losses : Rat
  ties : Rat
  win_percentage : Rat
  record_summary : Option String := none
  ranking_name : Option String := none
deriving DecidableEq, Inhabited

/-- A cache payload as passed to `cache_manager.save_cache`.  `ranking_name`,
`level` and `season` are present only for some strategies / configurations. -/
structure CachePayload where
  standings : List TeamEntry
  timestamp : Nat
  league : String
  ranking_name : Option String := none
  level : Option Nat := none
  season : Option Int := none
deriving DecidableEq, Inhabited

/-- Query parameters of the request issued by `_fetch_standings_data`
(lines 353-360): `level` and `sort` always, `season` only when explicitly
configured and truthy. -/
structure StdParams where
  level : Nat
  sort : String
  season : Option Int
deriving DecidableEq, Inhabited

/-- A league configuration dictionary.  `league` is read with `[]` (required
key); the others with `.get`.  `season = none` models an absent key or a
`None` value; a present falsy value (e.g. `0`) is `some 0`. -/
structure LeagueConfig where
  league : String
  sport : Option String := none
  top_teams : Option Nat := none
  level : Option Nat := none
  sort : Option String := none
  season : Option Int := none
deriving DecidableEq, Inhabited

/-- `team` sub-dictionary of one entry of a poll's `ranks` list. -/
structure RankTeamInfo where
  name : Option String := none
  id : Option String := none
  abbreviation : Option String := none
deriving DecidableEq, Inhabited

/-- One entry of a poll's `ranks` list. -/
structure RankEntry where
  team : Option RankTeamInfo := none
  current : Option Nat := none
  recordSummary : Option String := none
deriving DecidableEq, Inhabited

/-- One poll of the `rankings` array of a rankings response. -/
structure Poll where
  name : Option String := none
  type : Option String := none
  ranks : List RankEntry := []
deriving DecidableEq, Inhabited

/-- The decoded JSON of a rankings endpoint response. -/
structure RankingsResponse where
  rankings : List Poll
deriving DecidableEq, Inhabited

/-- One element of an entry's `stats` list.  Stat values are JSON numbers,
modelled as rationals. -/
structure StatItem where
  type : Option String := none
  value : Option Rat := none
deriving DecidableEq, Inhabited

/-- `team` sub-dictionary of a standings entry. `none` at the use site models
a missing or empty (falsy) dictionary. -/
structure EntryTeam where
  displayName : Option String := none
  abbreviation : Option String := none
  id : Option String := none
deriving DecidableEq, Inhabited

/-- One entry of a standings table. -/
structure StandEntry where
  team : Option EntryTeam := none
  stats : List StatItem := []
deriving DecidableEq, Inhabited

/-- One sub-group of a sectioned standings response; `entries` is
`child.get('standings', {}).get('entries', [])`. -/
structure Child where
  entries : List StandEntry := []
deriving DecidableEq, Inhabited

/-- The decoded JSON of a standings endpoint response.  `direct = some es`
models `'standings' in data and 'entries' in data['standings']` with entry
list `es`; `children = some cs` models `'children' in data`. -/
structure StandingsResponse where
  direct : Option (List StandEntry) := none
  children : Option (List Child) := none
deriving DecidableEq, Inhabited

/-- `team` sub-dictionary of one roster entry of the teams endpoint. -/
structure RosterTeamInfo where
  abbreviation : Option String := none
  name : Option String := none
  id : Option String := none
deriving DecidableEq, Inhabited

/-- One roster entry of the teams endpoint. -/
structure RosterTeam where
  team : Option RosterTeamInfo := none
deriving DecidableEq, Inhabited

/-- `leagues[i]` object of the teams endpoint response. -/
structure LeagueObj where
  teams : List RosterTeam := []
deriving DecidableEq, Inhabited

/-- `sports[i]` object of the teams endpoint response. -/
structure SportObj where
  leagues : List LeagueObj := []
deriving DecidableEq, Inhabited

/-- The decoded JSON of a teams endpoint response. -/
structure TeamsResponse where
  sports : List SportObj := []
deriving DecidableEq, Inhabited

/-- The record dictionary computed by `_fetch_team_record` (lines 592-612):
raw stat values (floats) and a computed win percentage. -/
structure TeamRecordR where
  wins : Rat
  losses : Rat
  ties : Rat
  win_percentage : Rat
deriving DecidableEq, Inhabited

/-- The environment a fetch runs in: the cache manager's view, one HTTP
oracle per endpoint kind (`none` = the request or JSON decoding raised), the
result of `_fetch_team_record` per team abbreviation (that helper catches its
own exceptions and returns `None` on failure, lines 624-626), and the wall
clock used for cache timestamps. -/
structure Env where
  cache : String → Option CachePayload
  rankingsNet : Option RankingsResponse := none
  standingsNet : Option StandingsResponse := none
  teamsNet : Option TeamsResponse := none
  recordOf : String → Option TeamRecordR := fun _ => none
  now : Nat := 0

/-- What one strategy invocation did: the returned standings list, the cache
writes performed (key, payload), how many times `increment_api_counter` ran,
and the query parameters of the standings request, if one was issued. -/
structure FetchResult where
  standings : List TeamEntry
  writes : List (String × CachePayload) := []
  apiCalls : Nat := 0
  stdParams : Option StdParams := none
deriving DecidableEq, Inhabited

/-! ## Shared pieces of the fetch strategies -/

/-- "a comes no later than b" in the descending win-percentage order.  Python
`list.sort(key=lambda x: x['win_percentage'], reverse=True)` is a stable sort
under exactly this relation. -/
def wpGe (a b : TeamEntry) : Prop := b.win_percentage ≤ a.win_percentage

instance : DecidableRel wpGe := fun a b =>
  inferInstanceAs (Decidable (b.win_percentage ≤ a.win_percentage))

instance : IsTotal TeamEntry wpGe :=
  ⟨fun a b => le_total b.win_percentage a.win_percentage⟩

instance : IsTrans TeamEntry wpGe :=
  ⟨fun _ _ _ h1 h2 => le_trans h2 h1⟩

/-- `standings.sort(key=lambda x: x['win_percentage'], reverse=True)`:
Python's sort is stable, and insertion sort under `wpGe` produces exactly
the stable descending order. -/
def pySortWpDesc (l : List TeamEntry) : List TeamEntry :=
  List.insertionSort wpGe l

/-- The AP-poll test of lines 109-113 / 276-279: the lower-cased name
contains both `"ap"` and `"top"`, or the lower-cased type equals `"ap"`. -/
def apMatch (r : Poll) : Bool :=
  let nm := (r.name.getD "").data.map pyLower
  let ty := (r.type.getD "").data.map pyLower
  (pyIn "ap".data nm && pyIn "top".data nm) || ty == "ap".data

/-- Poll selection of `_fetch_ncaa_fb_rankings` (lines 104-123) and
`_fetch_ncaa_basketball_rankings` (lines 271-289): the first AP match wins,
with display name `ranking.get('name', 'AP Top 25')`; otherwise the first
poll, with display name `.get('name', 'Unknown')`.  Only called on a
non-empty list. -/
def apSelect (rankings_data : List Poll) : Poll × String :=
  match rankings_data.find? apMatch with
  | some r => (r, r.name.getD "AP Top 25")
  | none => (rankings_data.head!, rankings_data.head!.name.getD "Unknown")

/-- Build one standings dictionary from a poll rank entry (the loop bodies at
lines 130-152, 205-226 and 296-317, identical in the three rankings
strategies). -/
def rank_entry_to_team (ranking_name : String) (team_data : RankEntry) : TeamEntry :=
  let team_info := team_data.team.getD {}
  let record_summary := team_data.recordSummary.getD "0-0"
  let parsed := parse_record record_summary
  { name := team_info.name.getD "Unknown"
    id := team_info.id
    abbreviation := team_info.abbreviation.getD "Unknown"
    rank := some (team_data.current.getD 0)
    wins := (parsed.1 : Rat)
    losses := (parsed.2.1 : Rat)
    ties := (parsed.2.2.1 : Rat)
    win_percentage := parsed.2.2.2
    record_summary := some record_summary
    ranking_name := some ranking_name }

/-! ## Strategy: rankings endpoints -/

/-- `DataFetcher._fetch_ncaa_fb_rankings` (lines 78-170). -/
def fetch_ncaa_fb_rankings (cfg : LeagueConfig) (env : Env) : FetchResult :=
  let cache_key := "leaderboard_" ++ cfg.league ++ "_rankings"
  match env.cache cache_key with
  | some cached => { standings := cached.standings }
  | none =>
    match env.rankingsNet with
    | none => { standings := [] }
    | some data =>
      let rankings_data := data.rankings
      if rankings_data.isEmpty then
        { standings := [], apiCalls := 1 }
      else
        let sel := apSelect rankings_data
        let ranking_name := sel.2
        let teams := sel.1.ranks
        let standings := teams.map (rank_entry_to_team ranking_name)
        let top_teams := standings.take (cfg.top_teams.getD 25)
        let cache_data : CachePayload :=
          { standings := top_teams, timestamp := env.now, league := cfg.league
            ranking_name := some ranking_name }
        { standings := top_teams, writes := [(cache_key, cache_data)], apiCalls := 1 }

/-- `DataFetcher._fetch_ncaam_hockey_rankings` (lines 172-243).  Unlike the
football/basketball variants, it always selects the first poll
(lines 197-200). -/
def fetch_ncaam_hockey_rankings (cfg : LeagueConfig) (env : Env) : FetchResult :=
  let cache_key := "leaderboard_" ++ cfg.league ++ "_rankings"
  match env.cache cache_key with
  | some cached => { standings := cached.standings }
  | none =>
    match env.rankingsNet with
    | none => { standings := [] }
    | some data =>
      let rankings_data := data.rankings
      if rankings_data.isEmpty then
        { standings := [], apiCalls := 1 }
      else
        let selected_ranking := rankings_data.head!
        let ranking_name := selected_ranking.name.getD "Unknown"
        let teams := selected_ranking.ranks
        let standings := teams.map (rank_entry_to_team ranking_name)
        let top_teams := standings.take (cfg.top_teams.getD 25)
        let cache_data : CachePayload :=
          { standings := top_teams, timestamp := env.now, league := cfg.league
            ranking_name := some ranking_name }
        { standings := top_teams, writes := [(cache_key, cache_data)], apiCalls := 1 }

/-- `DataFetcher._fetch_ncaa_basketball_rankings` (lines 245-334): same logic
as the football variant (endpoint URL aside, which the model's HTTP oracle
absorbs). -/
def fetch_ncaa_basketball_rankings (cfg : LeagueConfig) (env : Env) : FetchResult :=
  let cache_key := "leaderboard_" ++ cfg.league ++ "_rankings"
  match env.cache cache_key with
  | some cached => { standings := cached.standings }
  | none =>
    match env.rankingsNet with
    | none => { standings := [] }
    | some data =>
      let rankings_data := data.rankings
      if rankings_data.isEmpty then
        { standings := [], apiCalls := 1 }
      else
        let sel := apSelect rankings_data
        let ranking_name := sel.2
        let teams := sel.1.ranks
        let standings := teams.map (rank_entry_to_team ranking_name)
        let top_teams := standings.take (cfg.top_teams.getD 25)
        let cache_data : CachePayload :=
          { standings := top_teams, timestamp := env.now, league := cfg.league
            ranking_name := some ranking_name }
        { standings := top_teams, writes := [(cache_key, cache_data)], apiCalls := 1 }

/-! ## Strategy: direct standings endpoint -/

/-- Accumulator of the stat loop in `_extract_team_standing`
(lines 521-542): wins, losses, ties, win percentage, games played. -/
structure StatAcc where
  wins : Int := 0
  losses : Int := 0
  ties : Int := 0
  win_percentage : Rat := 0
  games_played : Rat := 0
deriving DecidableEq, Inhabited

/-- One step of the stat loop of `_extract_team_standing` (lines 527-542),
an `if`/`elif` chain on `stat.get('type', '')` with two NHL-only aliases. -/
def statStep (league_key : String) (acc : StatAcc) (stat : StatItem) : StatAcc :=
  let stat_type := stat.type.getD ""
  let stat_value := stat.value.getD 0
  if stat_type == "wins" then { acc with wins := pyTrunc stat_value }
  else if stat_type == "losses" then { acc with losses := pyTrunc stat_value }
  else if stat_type == "ties" then { acc with ties := pyTrunc stat_value }
  else if stat_type == "winpercent" then { acc with win_percentage := stat_value }
  else if stat_type == "overtimelosses" && league_key == "nhl" then
    { acc with ties := pyTrunc stat_value }
  else if stat_type == "gamesplayed" && league_key == "nhl" then
    { acc with games_played := stat_value }
  else acc

/-- `DataFetcher._extract_team_standing` (lines 503-564): `none` when the
entry's `team` dictionary is missing or empty (falsy), otherwise the
normalized standing with a `record_summary` rebuilt from the extracted
integers (`"W-L-T"` exactly when `ties > 0`, lines 547-550). -/
def extract_team_standing (entry : StandEntry) (league_key : String) : Option TeamEntry :=
  match entry.team with
  | none => none
  | some team_data =>
    let team_name := team_data.displayName.getD "Unknown"
    let team_abbr := team_data.abbreviation.getD "Unknown"
    let team_id := team_data.id
    let a := entry.stats.foldl (statStep league_key) {}
    let win_percentage :=
      if league_key == "nhl" && a.win_percentage == 0 && 0 < a.games_played then
        (a.wins : Rat) / a.games_played
      else a.win_percentage
    let record_summary :=
      if 0 < a.ties then s!"{a.wins}-{a.losses}-{a.ties}"
      else s!"{a.wins}-{a.losses}"
    some { name := team_name
           id := team_id
           abbreviation := team_abbr
           wins := (a.wins : Rat)
           losses := (a.losses : Rat)
           ties := (a.ties : Rat)
           win_percentage := win_percentage
           record_summary := some record_summary }

/-- The query parameters built at lines 353-360: `level` and `sort` with
defaults, `season` only when the key is present with a truthy value. -/
def mkStdParams (cfg : LeagueConfig) : StdParams :=
  { level := cfg.level.getD 1
    sort := cfg.sort.getD "winpercent:desc,gamesbehind:asc"
    season :=
      match cfg.season with
      | some v => if v ≠ 0 then some v else none
      | none => none }

/-- `DataFetcher._fetch_standings_data` (lines 336-434). -/
def fetch_standings_data (cfg : LeagueConfig) (env : Env) : FetchResult :=
  let league_key := cfg.league
  let cache_key := "leaderboard_" ++ league_key ++ "_standings"
  match env.cache cache_key with
  | some cached => { standings := cached.standings }
  | none =>
    let params := mkStdParams cfg
    match env.standingsNet with
    | none => { standings := [], stdParams := some params }
    | some data =>
      let shaped : Option (List TeamEntry × Bool) :=
        match data.direct with
        | some entries =>
          some (entries.filterMap (extract_team_standing · league_key), false)
        | none =>
          match data.children with
          | some children =>
            some ((children.foldl (fun acc c => acc ++ c.entries) []).filterMap
                    (extract_team_standing · league_key),
                  1 < children.length)
          | none => none
      match shaped with
      | none => { standings := [], apiCalls := 1, stdParams := some params }
      | some (standings, combined_from_multiple_sources) =>
        if standings.isEmpty then
          { standings := [], apiCalls := 1, stdParams := some params }
        else
          let sorted :=
            if combined_from_multiple_sources then pySortWpDesc standings else standings
          let top_teams := sorted.take (cfg.top_teams.getD 10)
          let cache_data : CachePayload :=
            { standings := top_teams, timestamp := env.now, league := league_key
              level := some params.level, season := params.season }
          { standings := top_teams, writes := [(cache_key, cache_data)]
            apiCalls := 1, stdParams := some params }

/-! ## Strategy: teams endpoint plus per-team records -/

/-- Build one standings dictionary of `_fetch_teams_data` (lines 476-484):
raw record values, and no `record_summary` or `rank` key. -/
def teams_entry_of (team : RosterTeamInfo) (team_abbr : String)
    (team_record : TeamRecordR) : TeamEntry :=
  { name := team.name.getD "Unknown"
    abbreviation := team_abbr
    id := team.id
    wins := team_record.wins
    losses := team_record.losses
    ties := team_record.ties
    win_percentage := team_record.win_percentage }

/-- The roster loop of `_fetch_teams_data` (lines 464-484): skip a team with
a missing or empty abbreviation; drop a team whose individual record fetch
(`_fetch_team_record`, which returns `None` on any error) yields nothing. -/
def roster_to_standings (env : Env) (teams : List RosterTeam) : List TeamEntry :=
  teams.filterMap (fun team_data =>
    let team := team_data.team.getD {}
    let team_abbr := team.abbreviation.getD ""
    if team_abbr == "" then none
    else
      match env.recordOf team_abbr with
      | none => none
      | some team_record => some (teams_entry_of team team_abbr team_record))

/-- `DataFetcher._fetch_teams_data` (lines 436-501). -/
def fetch_teams_data (cfg : LeagueConfig) (env : Env) : FetchResult :=
  let league_key := cfg.league
  let cache_key := "leaderboard_" ++ league_key
  match env.cache cache_key with
  | some cached => { standings := cached.standings }
  | none =>
    match env.teamsNet with
    | none => { standings := [] }
    | some data =>
      let sports := data.sports
      if sports.isEmpty || sports.head!.leagues.isEmpty then
        { standings := [], apiCalls := 1 }
      else
        let teams := sports.head!.leagues.head!.teams
        let standings := roster_to_standings env teams
        let sorted := pySortWpDesc standings
        let top_teams := sorted.take (cfg.top_teams.getD 10)
        let cache_data : CachePayload :=
          { standings := top_teams, timestamp := env.now, league := league_key }
        { standings := top_teams, writes := [(cache_key, cache_data)], apiCalls := 1 }

/-! ## The dispatcher -/

/-- The strategy dispatch of `fetch_standings` (lines 58-76), after the
top-level cache check. -/
def dispatch_fetch (cfg : LeagueConfig) (env : Env) : FetchResult :=
  let league_key := cfg.league
  if league_key = "college-football" then fetch_ncaa_fb_rankings cfg env
  else if league_key = "mens-college-hockey" then fetch_ncaam_hockey_rankings cfg env
  else if league_key = "mens-college-basketball" ∨ league_key = "womens-college-basketball" then
    fetch_ncaa_basketball_rankings cfg env
  else if league_key = "nfl" ∨ league_key = "mlb" ∨ league_key = "nhl"
      ∨ league_key = "college-baseball" then
    fetch_standings_data cfg env
  else fetch_teams_data cfg env

/-- `DataFetcher.fetch_standings` (lines 39-76): a cache probe of the bare
`leaderboard_{league}` key, then strategy dispatch on the league key. -/
def fetch_standings (cfg : LeagueConfig) (env : Env) : FetchResult :=
  let cache_key := "leaderboard_" ++ cfg.league
  match env.cache cache_key with
  | some cached => { standings := cached.standings }
  | none => dispatch_fetch cfg env

/-- The cache key under which the strategy selected for a league does its
own read-through and write-through. -/
def strategy_cache_key (league_key : String) : String :=
  if league_key = "college-football" then "leaderboard_" ++ league_key ++ "_rankings"
  else if league_key = "mens-college-hockey" then "leaderboard_" ++ league_key ++ "_rankings"
  else if league_key = "mens-college-basketball" ∨ league_key = "womens-college-basketball" then
    "leaderboard_" ++ league_key ++ "_rankings"
  else if league_key = "nfl" ∨ league_key = "mlb" ∨ league_key = "nhl"
      ∨ league_key = "college-baseball" then
    "leaderboard_" ++ league_key ++ "_standings"
  else "leaderboard_" ++ league_key

/-- `cache_manager.save_cache` acting on the modelled cache map. -/
def cacheInsert (c : String → Option CachePayload) (k : String) (p : CachePayload) :
    String → Option CachePayload :=
  fun q => if q = k then some p else c q

/-! ## Concrete fixtures

Small concrete responses and environments used to evaluate the embedded
strategies at specific inputs.  Record summaries are left at their `"0-0"`
default and win percentages are whole numbers so that every evaluation stays
within kernel-computable arithmetic. -/

/-- A non-AP poll listing one team. -/
def exCoachesPoll : Poll :=
  { name := some "Coaches Poll"
    ranks := [{ team := some { name := some "Denver", abbreviation := some "DU" }
                current := some 1 }] }

/-- An AP poll listing one team. -/
def exApPoll : Poll :=
  { name := some "AP Top 25"
    type := some "ap"
    ranks := [{ team := some { name := some "Boston College", abbreviation := some "BC" }
                current := some 1 }] }

/-- A rankings response whose first poll is not the AP poll. -/
def exRankingsEnv : Env :=
  { cache := fun _ => none
    rankingsNet := some { rankings := [exCoachesPoll, exApPoll] } }

/-- A rankings response with one poll that has an empty `ranks` list. -/
def exEmptyRanksEnv : Env :=
  { cache := fun _ => none
    rankingsNet := some { rankings := [{ name := some "AP Top 25", type := some "ap" }] } }

/-- A standings entry for a team with win percentage 0. -/
def exEntryX : StandEntry :=
  { team := some { displayName := some "Xray", abbreviation := some "X" }
    stats := [{ type := some "winpercent", value := some 0 }] }

/-- A standings entry for a team with win percentage 1. -/
def exEntryY : StandEntry :=
  { team := some { displayName := some "Yankee", abbreviation := some "Y" }
    stats := [{ type := some "winpercent", value := some 1 }] }

/-- A sectioned standings response with two sub-groups of which only the
first contributes entries, and those entries are not sorted descending. -/
def exSectionedEnv : Env :=
  { cache := fun _ => none
    standingsNet := some { children := some [{ entries := [exEntryX, exEntryY] },
                                             { entries := [] }] } }

/-- A standings response with neither a `standings.entries` nor a `children`
key. -/
def exNoShapeEnv : Env :=
  { cache := fun _ => none
    standingsNet := some {} }

/-- A direct standings response with one entry, season configured. -/
def exDirectEnv : Env :=
  { cache := fun _ => none
    standingsNet := some { direct := some [exEntryY] } }

/-- A roster team with the given abbreviation. -/
def exRosterTeam (abbr : String) : RosterTeam :=
  { team := some { abbreviation := some abbr, name := some abbr } }

/-- A three-team roster environment in which team `"BBB"`'s individual
record fetch fails and the other two succeed with whole-number win
percentages (`"AAA"` at 0, `"CCC"` at 1). -/
def exTeamsEnv : Env :=
  { cache := fun _ => none
    teamsNet := some { sports := [{ leagues := [{ teams :=
      [exRosterTeam "AAA", exRosterTeam "BBB", exRosterTeam "CCC"] }] }] }
    recordOf := fun abbr =>
      if abbr = "AAA" then some { wins := 0, losses := 1, ties := 0, win_percentage := 0 }
      else if abbr = "CCC" then some { wins := 1, losses := 0, ties := 0, win_percentage := 1 }
      else none }

/-- A one-team roster environment whose single record fetch succeeds. -/
def exTeamsEnvOne : Env :=
  { cache := fun _ => none
    teamsNet := some { sports := [{ leagues := [{ teams := [exRosterTeam "AAA"] }] }] }
    recordOf := fun abbr =>
      if abbr = "AAA" then some { wins := 1, losses := 0, ties := 0, win_percentage := 1 }
      else none }

/-- An environment in which every HTTP call raises and the cache is empty. -/
def exAllFailEnv : Env :=
  { cache := fun _ => none }

/-- A cached payload holding one team, used for cache-hit runs. -/
def exCachedPayload : CachePayload :=
  { standings := [{ name := "Cached", id := none, abbreviation := "CC"
                    wins := 3, losses := 2, ties := 0, win_percentage := 0 }]
    timestamp := 17
    league := "nfl" }

/-- An environment whose cache holds `exCachedPayload` under the NFL
standings-strategy key. -/
def exHitEnv : Env :=
  { cache := fun k => if k = "leaderboard_nfl_standings" then some exCachedPayload else none }

/-- The team entry extracted from `exEntryY` in a non-NHL league. -/
def exTeamEntryY : TeamEntry :=
  { name := "Yankee", id := none, abbreviation := "Y"
    wins := 0, losses := 0, ties := 0, win_percentage := 1
    record_summary := some "0-0" }

/-- The team entry extracted from `exEntryX` in a non-NHL league. -/
def exTeamEntryX : TeamEntry :=
  { name := "Xray", id := none, abbreviation := "X"
    wins := 0, losses := 0, ties := 0, win_percentage := 0
    record_summary := some "0-0" }

/-! ## Lemmas about the string primitives -/

lemma splitDash_ne_nil : ∀ cs : List Char, splitDash cs ≠ [] := by
  intro cs
  induction cs with
  | nil => simp [splitDash]
  | cons c rest ih =>
    unfold splitDash
    cases h : splitDash rest with
    | nil => simp
    | cons p ps => by_cases hc : c = '-' <;> simp [hc]

lemma mem_splitDash_ne_dash :
    ∀ (cs : List Char) (p : List Char) (c : Char),
      p ∈ splitDash cs → c ∈ p → c ≠ '-' := by
  intro cs
  induction cs with
  | nil =>
    intro p c hp hc
    simp [splitDash] at hp
    subst hp
    simp at hc
  | cons c0 rest ih =>
    intro p c hp hc
    unfold splitDash at hp
    cases h : splitDash rest with
    | nil => exact absurd h (splitDash_ne_nil rest)
    | cons q qs =>
      rw [h] at hp
      by_cases hd : c0 = '-'
      · simp [hd] at hp
        rcases hp with hp | hp
        · subst hp; simp at hc
        · exact ih p c (by rw [h]; exact List.mem_cons.mpr hp) hc
      · simp [hd] at hp
        rcases hp with hp | hp
        · subst hp
          rcases List.mem_cons.mp hc with rfl | hcq
          · exact hd
          · exact ih q c (by rw [h]; exact List.mem_cons_self q qs) hcq
        · exact ih p c (by rw [h]; exact List.mem_cons_of_mem q hp) hc

lemma splitDash_cons (c : Char) (rest : List Char) :
    splitDash (c :: rest) =
      match splitDash rest with
      | [] => [[]]
      | p :: ps => if c = '-' then [] :: p :: ps else (c :: p) :: ps := rfl

lemma splitDash_no_dash :
    ∀ (a : List Char), '-' ∉ a → splitDash a = [a] := by
  intro a
  induction a with
  | nil => intro _; rfl
  | cons x a' ih =>
    intro h
    have hx : x ≠ '-' := fun e => h (e ▸ List.mem_cons_self x a')
    have ha' : '-' ∉ a' := fun e => h (List.mem_cons_of_mem x e)
    unfold splitDash
    rw [ih ha']
    simp [hx]

lemma splitDash_append :
    ∀ (a rest : List Char), '-' ∉ a →
      splitDash (a ++ '-' :: rest) = a :: splitDash rest := by
  intro a
  induction a with
  | nil =>
    intro rest _
    cases h : splitDash rest with
    | nil => exact absurd h (splitDash_ne_nil rest)
    | cons p ps => simp [splitDash, h]
  | cons x a' ih =>
    intro rest h
    have hx : x ≠ '-' := fun e => h (e ▸ List.mem_cons_self x a')
    have ha' : '-' ∉ a' := fun e => h (List.mem_cons_of_mem x e)
    have e := ih rest ha'
    rw [List.cons_append, splitDash_cons, e]
    simp [hx]

lemma mem_dropWhile {p : Char → Bool} :
    ∀ {l : List Char} {x : Char}, x ∈ l.dropWhile p → x ∈ l := by
  intro l
  induction l with
  | nil => intro x h; simp [List.dropWhile] at h
  | cons a l' ih =>
    intro x h
    rw [List.dropWhile_cons] at h
    by_cases ha : p a
    · simp [ha] at h; exact List.mem_cons_of_mem a (ih h)
    · simp [ha] at h; exact List.mem_cons.mpr h

lemma mem_pyStrip {cs : List Char} {x : Char} (h : x ∈ pyStrip cs) : x ∈ cs := by
  unfold pyStrip at h
  rw [List.mem_reverse] at h
  have h2 := mem_dropWhile h
  rw [List.mem_reverse] at h2
  exact mem_dropWhile h2

lemma not_pySpace_of_digit {c : Char} (h : c.isDigit = true) : isPySpace c = false := by
  have h1 : c ≠ ' ' := fun e => by subst e; exact absurd h (by decide)
  have h2 : c ≠ '\t' := fun e => by subst e; exact absurd h (by decide)
  have h3 : c ≠ '\n' := fun e => by subst e; exact absurd h (by decide)
  have h4 : c ≠ '\r' := fun e => by subst e; exact absurd h (by decide)
  have h5 : c ≠ '\x0b' := fun e => by subst e; exact absurd h (by decide)
  have h6 : c ≠ '\x0c' := fun e => by subst e; exact absurd h (by decide)
  simp [isPySpace, h1, h2, h3, h4, h5, h6]

lemma ne_dash_of_digit {c : Char} (h : c.isDigit = true) : c ≠ '-' :=
  fun e => by subst e; exact absurd h (by decide)

lemma ne_plus_of_digit {c : Char} (h : c.isDigit = true) : c ≠ '+' :=
  fun e => by subst e; exact absurd h (by decide)

lemma ne_underscore_of_digit {c : Char} (h : c.isDigit = true) : c ≠ '_' :=
  fun e => by subst e; exact absurd h (by decide)

lemma pyStrip_digits {ds : List Char} (hne : ds ≠ [])
    (hd : ∀ c ∈ ds, c.isDigit) : pyStrip ds = ds := by
  have front : ds.dropWhile isPySpace = ds := by
    cases ds with
    | nil => rfl
    | cons c rest =>
      rw [List.dropWhile_cons,
        not_pySpace_of_digit (hd c (List.mem_cons_self c rest))]
      simp
  have back : ds.reverse.dropWhile isPySpace = ds.reverse := by
    cases h : ds.reverse with
    | nil => simp
    | cons c rest =>
      have hc : c ∈ ds := by
        rw [← List.mem_reverse, h]; exact List.mem_cons_self c rest
      rw [List.dropWhile_cons, not_pySpace_of_digit (hd c hc)]
      simp
  unfold pyStrip
  rw [front, back, List.reverse_reverse]

lemma digitTail_digits :
    ∀ (ds : List Char) (acc : Nat), (∀ c ∈ ds, c.isDigit) →
      digitTail ds acc = some (ds.foldl (fun a c => 10 * a + (c.toNat - 48)) acc) := by
  intro ds
  induction ds with
  | nil => intro acc _; rfl
  | cons c rest ih =>
    intro acc h
    have hc : c.isDigit := h c (List.mem_cons_self c rest)
    have hrest : ∀ x ∈ rest, x.isDigit := fun x hx => h x (List.mem_cons_of_mem c hx)
    unfold digitTail
    rw [if_neg (by exact_mod_cast ne_underscore_of_digit hc), if_pos hc,
      ih _ hrest, List.foldl_cons]

lemma pyIntCore_digits {ds : List Char} (hne : ds ≠ [])
    (hd : ∀ c ∈ ds, c.isDigit) : pyIntCore ds = some (digitsVal ds) := by
  cases ds with
  | nil => exact absurd rfl hne
  | cons c rest =>
    have hc : c.isDigit := hd c (List.mem_cons_self c rest)
    have hrest : ∀ x ∈ rest, x.isDigit := fun x hx => hd x (List.mem_cons_of_mem c hx)
    have e : pyIntCore (c :: rest) =
        if c.isDigit then digitTail rest (c.toNat - 48) else none := rfl
    rw [e, if_pos hc, digitTail_digits rest _ hrest]
    unfold digitsVal
    rw [List.foldl_cons]
    norm_num

lemma pyInt_digits {ds : List Char} (hne : ds ≠ [])
    (hd : ∀ c ∈ ds, c.isDigit) : pyInt ds = some ((digitsVal ds : Nat) : Int) := by
  unfold pyInt
  rw [pyStrip_digits hne hd]
  cases ds with
  | nil => exact absurd rfl hne
  | cons c rest =>
    have hc : c.isDigit := hd c (List.mem_cons_self c rest)
    simp only
    rw [if_neg (by exact_mod_cast ne_plus_of_digit hc),
      if_neg (by exact_mod_cast ne_dash_of_digit hc),
      pyIntCore_digits hne hd]
    rfl

lemma pyInt_nonneg {cs : List Char} (hnd : ∀ c ∈ cs, c ≠ '-') {n : Int}
    (h : pyInt cs = some n) : 0 ≤ n := by
  unfold pyInt at h
  cases ht : pyStrip cs with
  | nil => rw [ht] at h; exact absurd h (by simp)
  | cons c rest =>
    rw [ht] at h
    have hc : c ≠ '-' := hnd c (mem_pyStrip (ht ▸ List.mem_cons_self c rest))
    simp only at h
    by_cases hp : c = '+'
    · rw [if_pos hp] at h
      cases hcore : pyIntCore rest with
      | none => rw [hcore] at h; exact absurd h (by simp)
      | some m => rw [hcore] at h; simp at h; omega
    · rw [if_neg hp, if_neg hc] at h
      cases hcore : pyIntCore (c :: rest) with
      | none => rw [hcore] at h; exact absurd h (by simp)
      | some m => rw [hcore] at h; simp at h; omega

lemma ratio_bounds {w tot : Int} (hw : 0 ≤ w) (hwt : w ≤ tot) (hpos : 0 < tot) :
    0 ≤ (w : Rat) / (tot : Rat) ∧ (w : Rat) / (tot : Rat) ≤ 1 := by
  have h1 : (0 : Rat) < (tot : Rat) := by exact_mod_cast hpos
  refine ⟨div_nonneg (by exact_mod_cast hw) (le_of_lt h1), ?_⟩
  rw [div_le_one h1]
  exact_mod_cast hwt

/-! ## Behaviour of the strategies under a cache hit -/

lemma fb_cache_hit {cfg : LeagueConfig} {env : Env} {p : CachePayload}
    (h : env.cache ("leaderboard_" ++ cfg.league ++ "_rankings") = some p) :
    fetch_ncaa_fb_rankings cfg env = { standings := p.standings } := by
  simp only [fetch_ncaa_fb_rankings, h]

lemma hockey_cache_hit {cfg : LeagueConfig} {env : Env} {p : CachePayload}
    (h : env.cache ("leaderboard_" ++ cfg.league ++ "_rankings") = some p) :
    fetch_ncaam_hockey_rankings cfg env = { standings := p.standings } := by
  simp only [fetch_ncaam_hockey_rankings, h]

lemma bb_cache_hit {cfg : LeagueConfig} {env : Env} {p : CachePayload}
    (h : env.cache ("leaderboard_" ++ cfg.league ++ "_rankings") = some p) :
    fetch_ncaa_basketball_rankings cfg env = { standings := p.standings } := by
  simp only [fetch_ncaa_basketball_rankings, h]

lemma std_cache_hit {cfg : LeagueConfig} {env : Env} {p : CachePayload}
    (h : env.cache ("leaderboard_" ++ cfg.league ++ "_standings") = some p) :
    fetch_standings_data cfg env = { standings := p.standings } := by
  simp only [fetch_standings_data, h]

lemma teams_cache_hit {cfg : LeagueConfig} {env : Env} {p : CachePayload}
    (h : env.cache ("leaderboard_" ++ cfg.league) = some p) :
    fetch_teams_data cfg env = { standings := p.standings } := by
  simp only [fetch_teams_data, h]

/-! ## Every cache write of a strategy goes to its own key and stores the
returned list -/

lemma fb_writes_mem {cfg : LeagueConfig} {env : Env} {k : String} {pl : CachePayload}
    (hm : (k, pl) ∈ (fetch_ncaa_fb_rankings cfg env).writes) :
    k = "leaderboard_" ++ cfg.league ++ "_rankings" ∧
    pl.standings = (fetch_ncaa_fb_rankings cfg env).standings := by
  cases h : env.cache ("leaderboard_" ++ cfg.league ++ "_rankings") with
  | some p => simp [fetch_ncaa_fb_rankings, h] at hm
  | none =>
    cases hn : env.rankingsNet with
    | none => simp [fetch_ncaa_fb_rankings, h, hn] at hm
    | some data =>
      by_cases he : data.rankings.isEmpty
      · simp [fetch_ncaa_fb_rankings, h, hn, he] at hm
      · simp only [fetch_ncaa_fb_rankings, h, hn, if_neg he, List.mem_singleton,
          Prod.mk.injEq] at hm
        obtain ⟨hk, hpl⟩ := hm
        subst hpl
        exact ⟨hk, by simp only [fetch_ncaa_fb_rankings, h, hn, if_neg he]⟩

lemma hockey_writes_mem {cfg : LeagueConfig} {env : Env} {k : String} {pl : CachePayload}
    (hm : (k, pl) ∈ (fetch_ncaam_hockey_rankings cfg env).writes) :
    k = "leaderboard_" ++ cfg.league ++ "_rankings" ∧
    pl.standings = (fetch_ncaam_hockey_rankings cfg env).standings := by
  cases h : env.cache ("leaderboard_" ++ cfg.league ++ "_rankings") with
  | some p => simp [fetch_ncaam_hockey_rankings, h] at hm
  | none =>
    cases hn : env.rankingsNet with
    | none => simp [fetch_ncaam_hockey_rankings, h, hn] at hm
    | some data =>
      by_cases he : data.rankings.isEmpty
      · simp [fetch_ncaam_hockey_rankings, h, hn, he] at hm
      · simp only [fetch_ncaam_hockey_rankings, h, hn, if_neg he, List.mem_singleton,
          Prod.mk.injEq] at hm
        obtain ⟨hk, hpl⟩ := hm
        subst hpl
        exact ⟨hk, by simp only [fetch_ncaam_hockey_rankings, h, hn, if_neg he]⟩

lemma bb_writes_mem {cfg : LeagueConfig} {env : Env} {k : String} {pl : CachePayload}
    (hm : (k, pl) ∈ (fetch_ncaa_basketball_rankings cfg env).writes) :
    k = "leaderboard_" ++ cfg.league ++ "_rankings" ∧
    pl.standings = (fetch_ncaa_basketball_rankings cfg env).standings := by
  cases h : env.cache ("leaderboard_" ++ cfg.league ++ "_rankings") with
  | some p => simp [fetch_ncaa_basketball_rankings, h] at hm
  | none =>
    cases hn : env.rankingsNet with
    | none => simp [fetch_ncaa_basketball_rankings, h, hn] at hm
    | some data =>
      by_cases he : data.rankings.isEmpty
      · simp [fetch_ncaa_basketball_rankings, h, hn, he] at hm
      · simp only [fetch_ncaa_basketball_rankings, h, hn, if_neg he, List.mem_singleton,
          Prod.mk.injEq] at hm
        obtain ⟨hk, hpl⟩ := hm
        subst hpl
        exact ⟨hk, by simp only [fetch_ncaa_basketball_rankings, h, hn, if_neg he]⟩

lemma std_writes_mem {cfg : LeagueConfig} {env : Env} {k : String} {pl : CachePayload}
    (hm : (k, pl) ∈ (fetch_standings_data cfg env).writes) :
    k = "leaderboard_" ++ cfg.league ++ "_standings" ∧
    pl.standings = (fetch_standings_data cfg env).standings := by
  cases h : env.cache ("leaderboard_" ++ cfg.league ++ "_standings") with
  | some p => simp [fetch_standings_data, h] at hm
  | none =>
    cases hn : env.standingsNet with
    | none => simp [fetch_standings_data, h, hn] at hm
    | some data =>
      cases hd : data.direct with
      | some entries =>
        by_cases he : (entries.filterMap (extract_team_standing · cfg.league)).isEmpty
        · simp [fetch_standings_data, h, hn, hd, he] at hm
        · simp only [fetch_standings_data, h, hn, hd, if_neg he, List.mem_singleton,
            Prod.mk.injEq] at hm
          obtain ⟨hk, hpl⟩ := hm
          subst hpl
          exact ⟨hk, by simp only [fetch_standings_data, h, hn, hd, if_neg he]⟩
      | none =>
        cases hc : data.children with
        | none => simp [fetch_standings_data, h, hn, hd, hc] at hm
        | some children =>
          by_cases he : (((children.foldl (fun acc c => acc ++ c.entries) []).filterMap
              (extract_team_standing · cfg.league))).isEmpty
          · simp [fetch_standings_data, h, hn, hd, hc, he] at hm
          · simp only [fetch_standings_data, h, hn, hd, hc, if_neg he, List.mem_singleton,
              Prod.mk.injEq] at hm
            obtain ⟨hk, hpl⟩ := hm
            subst hpl
            exact ⟨hk, by simp only [fetch_standings_data, h, hn, hd, hc, if_neg he]⟩

lemma teams_writes_mem {cfg : LeagueConfig} {env : Env} {k : String} {pl : CachePayload}
    (hm : (k, pl) ∈ (fetch_teams_data cfg env).writes) :
    k = "leaderboard_" ++ cfg.league ∧
    pl.standings = (fetch_teams_data cfg env).standings := by
  cases h : env.cache ("leaderboard_" ++ cfg.league) with
  | some p => simp [fetch_teams_data, h] at hm
  | none =>
    cases hn : env.teamsNet with
    | none => simp [fetch_teams_data, h, hn] at hm
    | some data =>
      by_cases he : (data.sports.isEmpty || data.sports.head!.leagues.isEmpty) = true
      · simp only [fetch_teams_data, h, hn, if_pos he] at hm
        simp at hm
      · simp only [fetch_teams_data, h, hn, if_neg he, List.mem_singleton,
          Prod.mk.injEq] at hm
        obtain ⟨hk, hpl⟩ := hm
        subst hpl
        exact ⟨hk, by simp only [fetch_teams_data, h, hn, if_neg he]⟩

/-! ## A raised network or JSON exception degrades a strategy to an empty
result with no cache write -/

lemma fb_net_error {cfg : LeagueConfig} {env : Env}
    (h : env.cache ("leaderboard_" ++ cfg.league ++ "_rankings") = none)
    (hn : env.rankingsNet = none) :
    fetch_ncaa_fb_rankings cfg env = { standings := [] } := by
  simp only [fetch_ncaa_fb_rankings, h, hn]

lemma hockey_net_error {cfg : LeagueConfig} {env : Env}
    (h : env.cache ("leaderboard_" ++ cfg.league ++ "_rankings") = none)
    (hn : env.rankingsNet = none) :
    fetch_ncaam_hockey_rankings cfg env = { standings := [] } := by
  simp only [fetch_ncaam_hockey_rankings, h, hn]

lemma bb_net_error {cfg : LeagueConfig} {env : Env}
    (h : env.cache ("leaderboard_" ++ cfg.league ++ "_rankings") = none)
    (hn : env.rankingsNet = none) :
    fetch_ncaa_basketball_rankings cfg env = { standings := [] } := by
  simp only [fetch_ncaa_basketball_rankings, h, hn]

lemma std_net_error {cfg : LeagueConfig} {env : Env}
    (h : env.cache ("leaderboard_" ++ cfg.league ++ "_standings") = none)
    (hn : env.standingsNet = none) :
    fetch_standings_data cfg env = { standings := [], stdParams := some (mkStdParams cfg) } := by
  simp only [fetch_standings_data, h, hn]

lemma teams_net_error {cfg : LeagueConfig} {env : Env}
    (h : env.cache ("leaderboard_" ++ cfg.league) = none)
    (hn : env.teamsNet = none) :
    fetch_teams_data cfg env = { standings := [] } := by
  simp only [fetch_teams_data, h, hn]

/-! ## First-match decomposition for `List.find?` -/

lemma find?_first_match {α : Type} (p : α → Bool) :
    ∀ (l : List α) (r : α), l.find? p = some r →
      p r = true ∧ ∃ l1 l2, l = l1 ++ r :: l2 ∧ ∀ x ∈ l1, p x = false := by
  intro l
  induction l with
  | nil => intro r hr; simp at hr
  | cons a t ih =>
    intro r hr
    by_cases ha : p a
    · rw [List.find?_cons_of_pos _ ha] at hr
      obtain rfl : a = r := by injection hr
      exact ⟨ha, [], t, rfl, by simp⟩
    · rw [List.find?_cons_of_neg _ ha] at hr
      obtain ⟨hp, l1, l2, hsplit, hall⟩ := ih r hr
      refine ⟨hp, a :: l1, l2, by rw [hsplit]; rfl, ?_⟩
      intro x hx
      rcases List.mem_cons.mp hx with rfl | hx'
      · exact Bool.of_not_eq_true ha
      · exact hall x hx'

/-! ## String helpers for cache-key disjointness -/

lemma self_ne_append (s t : String) (ht : t.length ≠ 0) : s ≠ s ++ t := by
  intro he
  have hl := congrArg String.length he
  rw [String.length_append] at hl
  omega

/-! ## Claim C1 -/

/-- C1 (counterexample): the claim says every input that is not of the form
`"W-L"` or `"W-L-T"` yields `(0, 0, 0, 0.0)`.  The string `"1-2-3-4"` is of
neither form (it splits into four parts), yet `_parse_record` parses its
first two parts and returns `(1, 2, 0, 1/3)`: the length-3 check only guards
the ties assignment, not the whole parse. -/
theorem C1_counterexample :
    parse_record "1-2-3-4" = (1, 2, 0, (1 : Rat)/3) ∧
    parse_record "1-2-3-4" ≠ (0, 0, 0, 0) := by
  have hsplit : splitDash ("1-2-3-4" : String).data =
      ["1".data, "2".data, "3".data, "4".data] := by decide
  have e1 : pyInt "1".data = some 1 := by decide
  have e2 : pyInt "2".data = some 2 := by decide
  have hmain : parse_record "1-2-3-4" = (1, 2, 0, (1 : Rat)/3) := by
    unfold parse_record
    rw [hsplit]
    simp only [e1, e2]
    norm_num
  refine ⟨hmain, ?_⟩
  intro h
  rw [hmain] at h
  exact absurd (congrArg Prod.fst h) (by norm_num)

/-- C1 (amended): for every input `"W-L"` or `"W-L-T"` whose parts are
non-empty decimal digit strings, `_parse_record` returns exactly those
integers (ties = 0 for the two-part form) with
`win_percentage = W/(W+L+T)` (`0.0` when `W+L+T = 0`); and every input that
does not split on `'-'` into at least two parts returns `(0, 0, 0, 0.0)`.
(Inputs with at least two parts that are not of the valid form may return
partially parsed values, as the counterexample shows.) -/
theorem C1_parse_record_amended :
    (∀ (s : String) (dw dl : List Char),
        s.data = dw ++ '-' :: dl → dw ≠ [] → dl ≠ [] →
        (∀ c ∈ dw, c.isDigit) → (∀ c ∈ dl, c.isDigit) →
        parse_record s =
          ((digitsVal dw : Int), (digitsVal dl : Int), (0 : Int),
            if digitsVal dw + digitsVal dl = 0 then (0 : Rat)
            else (digitsVal dw : Rat) / ((digitsVal dw : Rat) + (digitsVal dl : Rat)))) ∧
    (∀ (s : String) (dw dl dt : List Char),
        s.data = dw ++ '-' :: (dl ++ '-' :: dt) → dw ≠ [] → dl ≠ [] → dt ≠ [] →
        (∀ c ∈ dw, c.isDigit) → (∀ c ∈ dl, c.isDigit) → (∀ c ∈ dt, c.isDigit) →
        parse_record s =
          ((digitsVal dw : Int), (digitsVal dl : Int), (digitsVal dt : Int),
            if digitsVal dw + digitsVal dl + digitsVal dt = 0 then (0 : Rat)
            else (digitsVal dw : Rat) /
              ((digitsVal dw : Rat) + (digitsVal dl : Rat) + (digitsVal dt : Rat)))) ∧
    (∀ s : String, (splitDash s.data).length < 2 → parse_record s = (0, 0, 0, 0)) := by
  refine ⟨?_, ?_, ?_⟩
  · intro s dw dl hs hw hl hdw hdl
    have hdashw : '-' ∉ dw := fun hm => ne_dash_of_digit (hdw '-' hm) rfl
    have hdashl : '-' ∉ dl := fun hm => ne_dash_of_digit (hdl '-' hm) rfl
    have hsplit : splitDash s.data = [dw, dl] := by
      rw [hs, splitDash_append dw _ hdashw, splitDash_no_dash dl hdashl]
    unfold parse_record
    rw [hsplit]
    simp only [pyInt_digits hw hdw, pyInt_digits hl hdl]
    by_cases h0 : digitsVal dw + digitsVal dl = 0
    · rw [if_pos h0, if_neg (by omega : ¬(0 : Int) < (digitsVal dw : Int) + (digitsVal dl : Int))]
    · rw [if_neg h0, if_pos (by omega : (0 : Int) < (digitsVal dw : Int) + (digitsVal dl : Int))]
      push_cast
      ring_nf
  · intro s dw dl dt hs hw hl ht hdw hdl hdt
    have hdashw : '-' ∉ dw := fun hm => ne_dash_of_digit (hdw '-' hm) rfl
    have hdashl : '-' ∉ dl := fun hm => ne_dash_of_digit (hdl '-' hm) rfl
    have hdasht : '-' ∉ dt := fun hm => ne_dash_of_digit (hdt '-' hm) rfl
    have hsplit : splitDash s.data = [dw, dl, dt] := by
      rw [hs, splitDash_append dw _ hdashw, splitDash_append dl _ hdashl,
        splitDash_no_dash dt hdasht]
    unfold parse_record
    rw [hsplit]
    simp only [pyInt_digits hw hdw, pyInt_digits hl hdl, pyInt_digits ht hdt]
    by_cases h0 : digitsVal dw + digitsVal dl + digitsVal dt = 0
    · rw [if_pos h0, if_neg (by omega :
        ¬(0 : Int) < (digitsVal dw : Int) + (digitsVal dl : Int) + (digitsVal dt : Int))]
    · rw [if_neg h0, if_pos (by omega :
        (0 : Int) < (digitsVal dw : Int) + (digitsVal dl : Int) + (digitsVal dt : Int))]
      push_cast
      ring_nf
  · intro s hlen
    unfold parse_record
    cases hsp : splitDash s.data with
    | nil => simp only [hsp]
    | cons p0 tl =>
      cases tl with
      | nil => simp only [hsp]
      | cons p1 rest =>
        rw [hsp] at hlen
        exact absurd hlen (by simp)

/-- C1 (witness): the amended theorem applied to the concrete record string
`"10-2-1"`, giving `(10, 2, 1, 10/13)`. -/
theorem C1_witness : parse_record "10-2-1" = (10, 2, 1, (10 : Rat)/13) := by
  have d1 : digitsVal "10".data = 10 := by decide
  have d2 : digitsVal "2".data = 2 := by decide
  have d3 : digitsVal "1".data = 1 := by decide
  have h := C1_parse_record_amended.2.1 "10-2-1" "10".data "2".data "1".data
    (by decide) (by decide) (by decide) (by decide) (by decide) (by decide) (by decide)
  rw [d1, d2, d3] at h
  rw [h]
  norm_num

/-! ## Claim C10 -/

/-- C10: for every input string, `_parse_record` terminates and returns a
value (in this embedding it is a total function; the `int` conversions and
the division are modelled exactly as guarded in the source), the returned
wins, losses and ties are non-negative (no part produced by splitting on
`'-'` can parse as a negative integer), and the returned win percentage lies
in `[0, 1]`. -/
theorem C10_parse_record_safe (s : String) :
    0 ≤ (parse_record s).1 ∧ 0 ≤ (parse_record s).2.1 ∧
    0 ≤ (parse_record s).2.2.1 ∧
    0 ≤ (parse_record s).2.2.2 ∧ (parse_record s).2.2.2 ≤ 1 := by
  have hnd : ∀ p ∈ splitDash s.data, ∀ c ∈ p, c ≠ '-' :=
    fun p hp c hc => mem_splitDash_ne_dash s.data p c hp hc
  unfold parse_record
  cases hsp : splitDash s.data with
  | nil => simp only [hsp]; norm_num
  | cons p0 tl =>
    cases tl with
    | nil => simp only [hsp]; norm_num
    | cons p1 rest =>
      have hp0 : ∀ c ∈ p0, c ≠ '-' :=
        hnd p0 (hsp ▸ List.mem_cons_self p0 (p1 :: rest))
      have hp1 : ∀ c ∈ p1, c ≠ '-' :=
        hnd p1 (hsp ▸ List.mem_cons_of_mem p0 (List.mem_cons_self p1 rest))
      simp only [hsp]
      cases h0 : pyInt p0 with
      | none => simp only [h0]; norm_num
      | some wins =>
        have hw : 0 ≤ wins := pyInt_nonneg hp0 h0
        simp only [h0]
        cases h1 : pyInt p1 with
        | none =>
          simp only [h1]
          exact ⟨hw, le_refl 0, le_refl 0, le_refl 0, zero_le_one⟩
        | some losses =>
          have hl : 0 ≤ losses := pyInt_nonneg hp1 h1
          simp only [h1]
          cases rest with
          | nil =>
            by_cases hpos : (0 : Int) < wins + losses
            · simp only [if_pos hpos]
              have hb := ratio_bounds hw (by omega : wins ≤ wins + losses) hpos
              exact ⟨hw, hl, le_refl 0, hb.1, hb.2⟩
            · simp only [if_neg hpos]
              exact ⟨hw, hl, le_refl 0, le_refl 0, zero_le_one⟩
          | cons p2 rest2 =>
            cases rest2 with
            | nil =>
              have hp2 : ∀ c ∈ p2, c ≠ '-' :=
                hnd p2 (hsp ▸ List.mem_cons_of_mem p0
                  (List.mem_cons_of_mem p1 (List.mem_cons_self p2 [])))
              cases h2 : pyInt p2 with
              | none =>
                simp only [h2]
                exact ⟨hw, hl, le_refl 0, le_refl 0, zero_le_one⟩
              | some ties =>
                have ht : 0 ≤ ties := pyInt_nonneg hp2 h2
                simp only [h2]
                by_cases hpos : (0 : Int) < wins + losses + ties
                · simp only [if_pos hpos]
                  have hb := ratio_bounds hw
                    (by omega : wins ≤ wins + losses + ties) hpos
                  exact ⟨hw, hl, ht, hb.1, hb.2⟩
                · simp only [if_neg hpos]
                  exact ⟨hw, hl, ht, le_refl 0, zero_le_one⟩
            | cons p3 rest3 =>
              by_cases hpos : (0 : Int) < wins + losses
              · simp only [if_pos hpos]
                have hb := ratio_bounds hw (by omega : wins ≤ wins + losses) hpos
                exact ⟨hw, hl, le_refl 0, hb.1, hb.2⟩
              · simp only [if_neg hpos]
                exact ⟨hw, hl, le_refl 0, le_refl 0, zero_le_one⟩

/-! ## Claim C2 -/

/-- C2 (counterexample): the claim says that for every RankingsPoll league —
explicitly including men's college hockey — the first AP-matching poll is
selected.  But `_fetch_ncaam_hockey_rankings` always selects the first poll
(lines 197-200): with the poll list `[Coaches Poll, AP Top 25]` it produces
standings labelled with the Coaches Poll even though an AP-matching poll is
present. -/
theorem C2_counterexample :
    apMatch exApPoll = true ∧ apMatch exCoachesPoll = false ∧
    (fetch_ncaam_hockey_rankings { league := "mens-college-hockey" } exRankingsEnv).standings =
      [{ name := "Denver"
         id := none
         abbreviation := "DU"
         rank := some 1
         wins := 0
         losses := 0
         ties := 0
         win_percentage := 0
         record_summary := some "0-0"
         ranking_name := some "Coaches Poll" }] := by
  refine ⟨by decide, by decide, by decide⟩

/-- C2 (amended): for college football and men's/women's college basketball,
the selected poll is the first poll matching the AP test (lower-cased name
containing both `"ap"` and `"top"`, or lower-cased type equal to `"ap"`),
falling back to the first poll — with a degraded-mode warning — when none
matches; for men's college hockey, the first poll is always selected,
regardless of whether an AP poll is present. -/
theorem C2_poll_selection_amended :
    (∀ polls : List Poll,
      ((∃ r ∈ polls, apMatch r = true) →
        apMatch (apSelect polls).1 = true ∧
        ∃ l1 l2, polls = l1 ++ (apSelect polls).1 :: l2 ∧ ∀ x ∈ l1, apMatch x = false) ∧
      ((∀ r ∈ polls, apMatch r = false) →
        (apSelect polls).1 = polls.head! ∧
        (apSelect polls).2 = polls.head!.name.getD "Unknown")) ∧
    (∀ (cfg : LeagueConfig) (env : Env) (data : RankingsResponse),
      env.cache ("leaderboard_" ++ cfg.league ++ "_rankings") = none →
      env.rankingsNet = some data → data.rankings ≠ [] →
      (fetch_ncaa_fb_rankings cfg env).standings =
        ((apSelect data.rankings).1.ranks.map
          (rank_entry_to_team (apSelect data.rankings).2)).take (cfg.top_teams.getD 25) ∧
      (fetch_ncaa_basketball_rankings cfg env).standings =
        ((apSelect data.rankings).1.ranks.map
          (rank_entry_to_team (apSelect data.rankings).2)).take (cfg.top_teams.getD 25) ∧
      (fetch_ncaam_hockey_rankings cfg env).standings =
        ((data.rankings.head!).ranks.map
          (rank_entry_to_team ((data.rankings.head!).name.getD "Unknown"))).take
          (cfg.top_teams.getD 25)) := by
  constructor
  · intro polls
    constructor
    · rintro ⟨r0, hr0, hm0⟩
      cases hf : polls.find? apMatch with
      | none =>
        exact absurd hm0 (by simpa using (List.find?_eq_none.mp hf) r0 hr0)
      | some r =>
        have hspec := find?_first_match apMatch polls r hf
        have hsel : apSelect polls = (r, r.name.getD "AP Top 25") := by
          unfold apSelect
          rw [hf]
        rw [hsel]
        exact ⟨hspec.1, hspec.2⟩
    · intro hall
      have hf : polls.find? apMatch = none :=
        List.find?_eq_none.mpr (fun x hx => by simp [hall x hx])
      have hsel : apSelect polls = (polls.head!, polls.head!.name.getD "Unknown") := by
        unfold apSelect
        rw [hf]
      rw [hsel]
      exact ⟨rfl, rfl⟩
  · intro cfg env data h hn hne
    have he : ¬ data.rankings.isEmpty = true := by
      simpa [List.isEmpty_iff] using hne
    refine ⟨?_, ?_, ?_⟩
    · simp only [fetch_ncaa_fb_rankings, h, hn, if_neg he]
    · simp only [fetch_ncaa_basketball_rankings, h, hn, if_neg he]
    · simp only [fetch_ncaam_hockey_rankings, h, hn, if_neg he]

/-- C2 (witness): the amended theorem applied to a college-football run on a
response whose polls are `[Coaches Poll, AP Top 25]`: the AP poll is the one
selected, not the first poll. -/
theorem C2_witness :
    (fetch_ncaa_fb_rankings { league := "college-football" } exRankingsEnv).standings =
      [{ name := "Boston College"
         id := none
         abbreviation := "BC"
         rank := some 1
         wins := 0
         losses := 0
         ties := 0
         win_percentage := 0
         record_summary := some "0-0"
         ranking_name := some "AP Top 25" }] := by
  have h := (C2_poll_selection_amended.2 { league := "college-football" } exRankingsEnv
    { rankings := [exCoachesPoll, exApPoll] } rfl rfl (by decide)).1
  exact h.trans (by decide)

/-! ## Claim C3 -/

/-- C3 (counterexample): the claim ties the re-sort to "more than one
sub-group contributed entries".  In `exSectionedEnv` there are two
sub-groups but only the first contributes entries (in upstream order
`[X, Y]`, not descending); the code still re-sorts — the condition at
line 396 is `len(children) > 1`, counting sub-groups, not contributing
sub-groups — so the output is `[Y, X]`, not the upstream order the claim
requires for a single contributing sub-group. -/
theorem C3_counterexample :
    ([exEntryX, exEntryY].filterMap (extract_team_standing · "nfl")) =
      [exTeamEntryX, exTeamEntryY] ∧
    (fetch_standings_data { league := "nfl" } exSectionedEnv).standings =
      [exTeamEntryY, exTeamEntryX] ∧
    (fetch_standings_data { league := "nfl" } exSectionedEnv).standings ≠
      [exTeamEntryX, exTeamEntryY] := by
  refine ⟨by decide, by decide, by decide⟩

/-- C3 (amended): in the DirectStandings strategy, the flattened entries of a
sectioned response are re-sorted by win percentage descending exactly when
the `children` array holds more than one sub-group — whether or not each of
them contributed entries — and a single-sub-group sectioned response, like
the direct shape, is returned in upstream order (after extraction and
truncation). -/
theorem C3_resort_rule_amended :
    ∀ (cfg : LeagueConfig) (env : Env) (data : StandingsResponse),
      env.cache ("leaderboard_" ++ cfg.league ++ "_standings") = none →
      env.standingsNet = some data →
      (∀ entries, data.direct = some entries →
        (fetch_standings_data cfg env).standings =
          (entries.filterMap (extract_team_standing · cfg.league)).take
            (cfg.top_teams.getD 10)) ∧
      (∀ children, data.direct = none → data.children = some children →
        ((fetch_standings_data cfg env).standings =
          (if 1 < children.length then
              pySortWpDesc ((children.foldl (fun acc c => acc ++ c.entries) []).filterMap
                (extract_team_standing · cfg.league))
            else
              (children.foldl (fun acc c => acc ++ c.entries) []).filterMap
                (extract_team_standing · cfg.league)).take (cfg.top_teams.getD 10)) ∧
        (1 < children.length → (fetch_standings_data cfg env).standings.Sorted wpGe)) := by
  intro cfg env data h hn
  constructor
  · intro entries hd
    by_cases he : (entries.filterMap (extract_team_standing · cfg.league)).isEmpty = true
    · simp only [fetch_standings_data, h, hn, hd, if_pos he]
      rw [List.isEmpty_iff.mp he]
      simp
    · simp only [fetch_standings_data, h, hn, hd, if_neg he]
      simp
  · intro children hd hc
    by_cases he : (((children.foldl (fun acc c => acc ++ c.entries) []).filterMap
        (extract_team_standing · cfg.league))).isEmpty = true
    · constructor
      · simp only [fetch_standings_data, h, hn, hd, hc, if_pos he]
        rw [List.isEmpty_iff.mp he]
        simp [pySortWpDesc, List.insertionSort]
      · intro _
        simp only [fetch_standings_data, h, hn, hd, hc, if_pos he]
        exact List.sorted_nil
    · constructor
      · simp only [fetch_standings_data, h, hn, hd, hc, if_neg he]
        by_cases hlen : 1 < children.length
        · simp [hlen]
        · simp [hlen]
      · intro hlen
        simp only [fetch_standings_data, h, hn, hd, hc, if_neg he]
        rw [if_pos (by simpa using hlen)]
        simp only [pySortWpDesc]
        exact List.Pairwise.sublist (List.take_sublist _ _)
          (List.sorted_insertionSort wpGe _)

/-- C3 (witness): the amended theorem applied to the two-sub-group response
of `exSectionedEnv` with `top_teams = 1`: the flattened entries are
re-sorted descending and then truncated, leaving only the entry with win
percentage 1. -/
theorem C3_witness :
    (fetch_standings_data { league := "nfl", top_teams := some 1 } exSectionedEnv).standings =
      [exTeamEntryY] := by
  have h := ((C3_resort_rule_amended { league := "nfl", top_teams := some 1 }
    exSectionedEnv { children := some [{ entries := [exEntryX, exEntryY] },
      { entries := [] }] } rfl rfl).2
    [{ entries := [exEntryX, exEntryY] }, { entries := [] }] rfl rfl).1
  exact h.trans (by decide)

/-! ## Claim C4 -/

/-- C4 (counterexample): the claim says no strategy caches an empty result
when zero usable entries were extracted.  In the football rankings strategy,
a response with a poll whose `ranks` list is empty yields zero entries, yet
the (empty) list is cached: the zero-entries check of
`_fetch_standings_data` (lines 403-406) has no counterpart at lines 154-166.
 -/
theorem C4_counterexample :
    (fetch_ncaa_fb_rankings { league := "college-football" } exEmptyRanksEnv).standings = [] ∧
    (fetch_ncaa_fb_rankings { league := "college-football" } exEmptyRanksEnv).writes =
      [("leaderboard_college-football_rankings",
        { standings := []
          timestamp := 0
          league := "college-football"
          ranking_name := some "AP Top 25" })] := by
  refine ⟨by decide, by decide⟩

/-- C4 (amended): the DirectStandings strategy returns an empty list with no
cache write both when no response shape matches and when zero entries are
extracted; the rankings strategies (football, hockey and basketball alike)
and the TeamsPlusRecord strategy return an empty list with no cache write
only when the response shape is missing (no polls; no sports/leagues),
while a recognized shape that yields zero entries (a selected poll with an
empty ranks list; a roster whose teams are all skipped or dropped) results
in an empty list that IS cached. -/
theorem C4_schema_failure_amended :
    ∀ (cfg : LeagueConfig) (env : Env),
      (∀ data : StandingsResponse,
        env.cache ("leaderboard_" ++ cfg.league ++ "_standings") = none →
        env.standingsNet = some data →
        ((data.direct = none → data.children = none →
          fetch_standings_data cfg env =
            { standings := [], apiCalls := 1, stdParams := some (mkStdParams cfg) }) ∧
        (∀ entries, data.direct = some entries →
          entries.filterMap (extract_team_standing · cfg.league) = [] →
          fetch_standings_data cfg env =
            { standings := [], apiCalls := 1, stdParams := some (mkStdParams cfg) }) ∧
        (∀ children, data.direct = none → data.children = some children →
          (children.foldl (fun acc c => acc ++ c.entries) []).filterMap
              (extract_team_standing · cfg.league) = [] →
          fetch_standings_data cfg env =
            { standings := [], apiCalls := 1, stdParams := some (mkStdParams cfg) }))) ∧
      (∀ data : RankingsResponse,
        env.cache ("leaderboard_" ++ cfg.league ++ "_rankings") = none →
        env.rankingsNet = some data →
        (data.rankings = [] →
          fetch_ncaa_fb_rankings cfg env = { standings := [], apiCalls := 1 } ∧
          fetch_ncaam_hockey_rankings cfg env = { standings := [], apiCalls := 1 } ∧
          fetch_ncaa_basketball_rankings cfg env = { standings := [], apiCalls := 1 }) ∧
        (data.rankings ≠ [] → (apSelect data.rankings).1.ranks = [] →
          ((fetch_ncaa_fb_rankings cfg env).standings = [] ∧
           (fetch_ncaa_fb_rankings cfg env).writes =
             [("leaderboard_" ++ cfg.league ++ "_rankings",
               { standings := []
                 timestamp := env.now
                 league := cfg.league
                 ranking_name := some (apSelect data.rankings).2 })]) ∧
          ((fetch_ncaa_basketball_rankings cfg env).standings = [] ∧
           (fetch_ncaa_basketball_rankings cfg env).writes =
             [("leaderboard_" ++ cfg.league ++ "_rankings",
               { standings := []
                 timestamp := env.now
                 league := cfg.league
                 ranking_name := some (apSelect data.rankings).2 })])) ∧
        (data.rankings ≠ [] → data.rankings.head!.ranks = [] →
          (fetch_ncaam_hockey_rankings cfg env).standings = [] ∧
          (fetch_ncaam_hockey_rankings cfg env).writes =
            [("leaderboard_" ++ cfg.league ++ "_rankings",
              { standings := []
                timestamp := env.now
                league := cfg.league
                ranking_name := some (data.rankings.head!.name.getD "Unknown") })])) ∧
      (∀ data : TeamsResponse,
        env.cache ("leaderboard_" ++ cfg.league) = none →
        env.teamsNet = some data →
        ((data.sports.isEmpty || data.sports.head!.leagues.isEmpty) = true →
          fetch_teams_data cfg env = { standings := [], apiCalls := 1 }) ∧
        ((data.sports.isEmpty || data.sports.head!.leagues.isEmpty) = false →
          roster_to_standings env data.sports.head!.leagues.head!.teams = [] →
          (fetch_teams_data cfg env).standings = [] ∧
          (fetch_teams_data cfg env).writes =
            [("leaderboard_" ++ cfg.league,
              { standings := [], timestamp := env.now, league := cfg.league })])) := by
  intro cfg env
  refine ⟨?_, ?_, ?_⟩
  · intro data h hn
    refine ⟨?_, ?_, ?_⟩
    · intro hd hc
      simp only [fetch_standings_data, h, hn, hd, hc]
    · intro entries hd hz
      have he : (entries.filterMap (extract_team_standing · cfg.league)).isEmpty = true := by
        simp [hz]
      simp only [fetch_standings_data, h, hn, hd, if_pos he]
    · intro children hd hc hz
      have he : ((children.foldl (fun acc c => acc ++ c.entries) []).filterMap
          (extract_team_standing · cfg.league)).isEmpty = true := by
        simp [hz]
      simp only [fetch_standings_data, h, hn, hd, hc, if_pos he]
  · intro data h hn
    refine ⟨?_, ?_, ?_⟩
    · intro hr
      have he : data.rankings.isEmpty = true := by simp [hr]
      refine ⟨?_, ?_, ?_⟩
      · simp only [fetch_ncaa_fb_rankings, h, hn, if_pos he]
      · simp only [fetch_ncaam_hockey_rankings, h, hn, if_pos he]
      · simp only [fetch_ncaa_basketball_rankings, h, hn, if_pos he]
    · intro hne hranks
      have he : ¬ data.rankings.isEmpty = true := by
        simpa [List.isEmpty_iff] using hne
      refine ⟨⟨?_, ?_⟩, ?_, ?_⟩
      · simp only [fetch_ncaa_fb_rankings, h, hn, if_neg he, hranks]
        simp
      · simp only [fetch_ncaa_fb_rankings, h, hn, if_neg he, hranks]
        simp
      · simp only [fetch_ncaa_basketball_rankings, h, hn, if_neg he, hranks]
        simp
      · simp only [fetch_ncaa_basketball_rankings, h, hn, if_neg he, hranks]
        simp
    · intro hne hranks
      have he : ¬ data.rankings.isEmpty = true := by
        simpa [List.isEmpty_iff] using hne
      constructor
      · simp only [fetch_ncaam_hockey_rankings, h, hn, if_neg he, hranks]
        simp
      · simp only [fetch_ncaam_hockey_rankings, h, hn, if_neg he, hranks]
        simp
  · intro data h hn
    constructor
    · intro he
      simp only [fetch_teams_data, h, hn, if_pos he]
    · intro he hroster
      have he' : ¬ (data.sports.isEmpty || data.sports.head!.leagues.isEmpty) = true := by
        simp [he]
      constructor
      · simp only [fetch_teams_data, h, hn, if_neg he', hroster]
        simp [pySortWpDesc, List.insertionSort]
      · simp only [fetch_teams_data, h, hn, if_neg he', hroster]
        simp [pySortWpDesc, List.insertionSort]

/-- C4 (witness): the amended theorem applied to a direct-standings run whose
response has neither recognized shape: the result is empty and nothing is
cached. -/
theorem C4_witness :
    fetch_standings_data { league := "nfl" } exNoShapeEnv =
      { standings := [], apiCalls := 1
        stdParams := some (mkStdParams { league := "nfl" }) } :=
  ((C4_schema_failure_amended { league := "nfl" } exNoShapeEnv).1 {} rfl rfl).1 rfl rfl

/-! ## Claim C5 -/

/-- C5: in the TeamsPlusRecord strategy, on a cache miss with a usable
roster response, a team enters the result exactly when its abbreviation is
present and non-empty and its nested record fetch succeeds; the surviving
teams are sorted by win percentage descending (the output is sorted under
`wpGe`), truncated to `top_teams` (default 10), cached under the bare league
key with the same list, and returned. -/
theorem C5_teams_plus_record :
    ∀ (cfg : LeagueConfig) (env : Env) (data : TeamsResponse),
      env.cache ("leaderboard_" ++ cfg.league) = none →
      env.teamsNet = some data →
      (data.sports.isEmpty || data.sports.head!.leagues.isEmpty) = false →
      (fetch_teams_data cfg env).standings =
        (pySortWpDesc (roster_to_standings env data.sports.head!.leagues.head!.teams)).take
          (cfg.top_teams.getD 10) ∧
      (fetch_teams_data cfg env).standings.Sorted wpGe ∧
      (fetch_teams_data cfg env).writes =
        [("leaderboard_" ++ cfg.league,
          { standings := (fetch_teams_data cfg env).standings
            timestamp := env.now
            league := cfg.league })] ∧
      (∀ e, e ∈ roster_to_standings env data.sports.head!.leagues.head!.teams ↔
        ∃ td ∈ data.sports.head!.leagues.head!.teams,
          (td.team.getD {}).abbreviation.getD "" ≠ "" ∧
          ∃ rec, env.recordOf ((td.team.getD {}).abbreviation.getD "") = some rec ∧
            e = teams_entry_of (td.team.getD {}) ((td.team.getD {}).abbreviation.getD "") rec) := by
  intro cfg env data h hn he
  have he' : ¬ (data.sports.isEmpty || data.sports.head!.leagues.isEmpty) = true := by
    simp [he]
  refine ⟨?_, ?_, ?_, ?_⟩
  · simp only [fetch_teams_data, h, hn, if_neg he']
  · simp only [fetch_teams_data, h, hn, if_neg he', pySortWpDesc]
    exact List.Pairwise.sublist (List.take_sublist _ _)
      (List.sorted_insertionSort wpGe _)
  · simp only [fetch_teams_data, h, hn, if_neg he']
  · intro e
    unfold roster_to_standings
    rw [List.mem_filterMap]
    constructor
    · rintro ⟨td, htd, hf⟩
      by_cases ha : (td.team.getD {}).abbreviation.getD "" == ""
      · rw [if_pos ha] at hf
        exact absurd hf (by simp)
      · rw [if_neg ha] at hf
        cases hr : env.recordOf ((td.team.getD {}).abbreviation.getD "") with
        | none => rw [hr] at hf; exact absurd hf (by simp)
        | some rec =>
          rw [hr] at hf
          refine ⟨td, htd, by simpa using ha, rec, hr, ?_⟩
          simpa using hf.symm
    · rintro ⟨td, htd, ha, rec, hr, rfl⟩
      refine ⟨td, htd, ?_⟩
      rw [if_neg (by simpa using ha), hr]

/-- C5 (witness): a three-team roster (`AAA`, `BBB`, `CCC`) in which `BBB`'s
individual record fetch fails: the result holds exactly the other two
teams, sorted by win percentage descending (`CCC` at 1 before `AAA` at 0). -/
theorem C5_witness :
    (fetch_teams_data { league := "nba" } exTeamsEnv).standings =
      [{ name := "CCC"
         id := none
         abbreviation := "CCC"
         wins := 1
         losses := 0
         ties := 0
         win_percentage := 1 },
       { name := "AAA"
         id := none
         abbreviation := "AAA"
         wins := 0
         losses := 1
         ties := 0
         win_percentage := 0 }] := by
  have h := (C5_teams_plus_record { league := "nba" } exTeamsEnv
    { sports := [{ leagues := [{ teams :=
        [exRosterTeam "AAA", exRosterTeam "BBB", exRosterTeam "CCC"] }] }] }
    rfl rfl (by decide)).1
  exact h.trans (by decide)

/-! ## Dispatcher-level composition lemmas -/

lemma dispatch_cache_hit {cfg : LeagueConfig} {env : Env} {p : CachePayload}
    (h : env.cache (strategy_cache_key cfg.league) = some p) :
    dispatch_fetch cfg env = { standings := p.standings } := by
  unfold strategy_cache_key at h
  by_cases h1 : cfg.league = "college-football"
  · rw [if_pos h1] at h
    simp only [dispatch_fetch]
    rw [if_pos h1]
    exact fb_cache_hit h
  · rw [if_neg h1] at h
    by_cases h2 : cfg.league = "mens-college-hockey"
    · rw [if_pos h2] at h
      simp only [dispatch_fetch]
      rw [if_neg h1, if_pos h2]
      exact hockey_cache_hit h
    · rw [if_neg h2] at h
      by_cases h3 : cfg.league = "mens-college-basketball" ∨
          cfg.league = "womens-college-basketball"
      · rw [if_pos h3] at h
        simp only [dispatch_fetch]
        rw [if_neg h1, if_neg h2, if_pos h3]
        exact bb_cache_hit h
      · rw [if_neg h3] at h
        by_cases h4 : cfg.league = "nfl" ∨ cfg.league = "mlb" ∨ cfg.league = "nhl" ∨
            cfg.league = "college-baseball"
        · rw [if_pos h4] at h
          simp only [dispatch_fetch]
          rw [if_neg h1, if_neg h2, if_neg h3, if_pos h4]
          exact std_cache_hit h
        · rw [if_neg h4] at h
          simp only [dispatch_fetch]
          rw [if_neg h1, if_neg h2, if_neg h3, if_neg h4]
          exact teams_cache_hit h

lemma dispatch_writes_mem {cfg : LeagueConfig} {env : Env} {k : String} {p : CachePayload}
    (hm : (k, p) ∈ (dispatch_fetch cfg env).writes) :
    k = strategy_cache_key cfg.league ∧
    p.standings = (dispatch_fetch cfg env).standings := by
  unfold strategy_cache_key
  by_cases h1 : cfg.league = "college-football"
  · simp only [dispatch_fetch, if_pos h1] at hm ⊢
    exact fb_writes_mem hm
  · by_cases h2 : cfg.league = "mens-college-hockey"
    · simp only [dispatch_fetch, if_neg h1, if_pos h2] at hm ⊢
      exact hockey_writes_mem hm
    · by_cases h3 : cfg.league = "mens-college-basketball" ∨
          cfg.league = "womens-college-basketball"
      · simp only [dispatch_fetch, if_neg h1, if_neg h2, if_pos h3] at hm ⊢
        exact bb_writes_mem hm
      · by_cases h4 : cfg.league = "nfl" ∨ cfg.league = "mlb" ∨ cfg.league = "nhl" ∨
            cfg.league = "college-baseball"
        · simp only [dispatch_fetch, if_neg h1, if_neg h2, if_neg h3, if_pos h4] at hm ⊢
          exact std_writes_mem hm
        · simp only [dispatch_fetch, if_neg h1, if_neg h2, if_neg h3, if_neg h4] at hm ⊢
          exact teams_writes_mem hm

/-! ## Claim C6 -/

/-- C6: read-through and idempotence.  (1) When the strategy's cache key
holds a payload (and the top-level probe of the bare league key misses, as
it does in every state the program itself produces), the fetch returns that
payload's standings verbatim, performs no cache write, makes no HTTP call
and issues no request parameters.  (2) After a first call that fetched and
cached, a second call against the updated cache returns exactly the first
call's cached standings, again with no write and no call. -/
theorem C6_cache_hit_idempotence :
    (∀ (cfg : LeagueConfig) (env : Env) (p : CachePayload),
      env.cache ("leaderboard_" ++ cfg.league) = none →
      env.cache (strategy_cache_key cfg.league) = some p →
      fetch_standings cfg env = { standings := p.standings }) ∧
    (∀ (cfg : LeagueConfig) (env : Env) (k : String) (p : CachePayload),
      env.cache ("leaderboard_" ++ cfg.league) = none →
      env.cache (strategy_cache_key cfg.league) = none →
      (fetch_standings cfg env).writes = [(k, p)] →
      p.standings = (fetch_standings cfg env).standings ∧
      fetch_standings cfg { env with cache := cacheInsert env.cache k p } =
        { standings := p.standings }) := by
  constructor
  · intro cfg env p htop hstrat
    simp only [fetch_standings, htop]
    exact dispatch_cache_hit hstrat
  · intro cfg env k p htop _hstrat hw
    have hd : fetch_standings cfg env = dispatch_fetch cfg env := by
      simp only [fetch_standings, htop]
    rw [hd] at hw ⊢
    have hmem : (k, p) ∈ (dispatch_fetch cfg env).writes := by
      rw [hw]
      exact List.mem_cons_self _ _
    obtain ⟨hk, hps⟩ := dispatch_writes_mem hmem
    subst hk
    refine ⟨hps, ?_⟩
    by_cases heq : "leaderboard_" ++ cfg.league = strategy_cache_key cfg.league
    · have htop2 : cacheInsert env.cache (strategy_cache_key cfg.league) p
          ("leaderboard_" ++ cfg.league) = some p := by
        simp only [cacheInsert]
        rw [if_pos heq]
      simp only [fetch_standings, htop2]
    · have htop2 : cacheInsert env.cache (strategy_cache_key cfg.league) p
          ("leaderboard_" ++ cfg.league) = none := by
        simp only [cacheInsert]
        rw [if_neg heq, htop]
      have hstrat2 : cacheInsert env.cache (strategy_cache_key cfg.league) p
          (strategy_cache_key cfg.league) = some p := by
        simp [cacheInsert]
      simp only [fetch_standings, htop2]
      exact dispatch_cache_hit hstrat2

/-- C6 (witness): an NFL fetch against a cache that already holds a payload
under `leaderboard_nfl_standings` returns that payload's standings verbatim
with no write, no API call and no outgoing request. -/
theorem C6_witness :
    fetch_standings { league := "nfl" } exHitEnv =
      { standings := exCachedPayload.standings } :=
  C6_cache_hit_idempotence.1 { league := "nfl" } exHitEnv exCachedPayload
    (by decide) (by decide)

/-! ## Claim C7 -/

/-- C7: in the DirectStandings strategy, on a cache miss the outgoing
request carries exactly the parameters of `mkStdParams`: its `season` is
absent whenever the configured season is absent, `None` or falsy, and equal
to the configured value whenever that value is truthy; and every cache
payload written by the strategy carries the same `season` as the request
(hence also no season field when not configured). -/
theorem C7_season_omission :
    ∀ (cfg : LeagueConfig) (env : Env),
      env.cache ("leaderboard_" ++ cfg.league ++ "_standings") = none →
      (fetch_standings_data cfg env).stdParams = some (mkStdParams cfg) ∧
      ((cfg.season = none ∨ cfg.season = some 0) → (mkStdParams cfg).season = none) ∧
      (∀ v : Int, cfg.season = some v → v ≠ 0 → (mkStdParams cfg).season = some v) ∧
      (∀ k p, (k, p) ∈ (fetch_standings_data cfg env).writes →
        p.season = (mkStdParams cfg).season) := by
  intro cfg env h
  refine ⟨?_, ?_, ?_, ?_⟩
  · cases hn : env.standingsNet with
    | none => simp only [fetch_standings_data, h, hn]
    | some data =>
      cases hd : data.direct with
      | some entries =>
        by_cases he : (entries.filterMap (extract_team_standing · cfg.league)).isEmpty = true
        · simp only [fetch_standings_data, h, hn, hd, if_pos he]
        · simp only [fetch_standings_data, h, hn, hd, if_neg he]
      | none =>
        cases hc : data.children with
        | none => simp only [fetch_standings_data, h, hn, hd, hc]
        | some children =>
          by_cases he : (((children.foldl (fun acc c => acc ++ c.entries) []).filterMap
              (extract_team_standing · cfg.league))).isEmpty = true
          · simp only [fetch_standings_data, h, hn, hd, hc, if_pos he]
          · simp only [fetch_standings_data, h, hn, hd, hc, if_neg he]
  · rintro (hs | hs) <;> simp [mkStdParams, hs]
  · intro v hs hv
    simp [mkStdParams, hs, hv]
  · intro k p hm
    cases hn : env.standingsNet with
    | none => simp [fetch_standings_data, h, hn] at hm
    | some data =>
      cases hd : data.direct with
      | some entries =>
        by_cases he : (entries.filterMap (extract_team_standing · cfg.league)).isEmpty = true
        · simp [fetch_standings_data, h, hn, hd, he] at hm
        · simp only [fetch_standings_data, h, hn, hd, if_neg he, List.mem_singleton,
            Prod.mk.injEq] at hm
          rw [hm.2]
      | none =>
        cases hc : data.children with
        | none => simp [fetch_standings_data, h, hn, hd, hc] at hm
        | some children =>
          by_cases he : (((children.foldl (fun acc c => acc ++ c.entries) []).filterMap
              (extract_team_standing · cfg.league))).isEmpty = true
          · simp [fetch_standings_data, h, hn, hd, hc, he] at hm
          · simp only [fetch_standings_data, h, hn, hd, hc, if_neg he, List.mem_singleton,
              Prod.mk.injEq] at hm
            rw [hm.2]

/-- C7 (witness): an NFL run with `season = 2024` configured: the request
parameters and the written cache payload both carry season 2024; and the
general season rule evaluated at this configuration. -/
theorem C7_witness :
    (fetch_standings_data { league := "nfl", season := some 2024 } exDirectEnv).stdParams =
      some (mkStdParams { league := "nfl", season := some 2024 }) ∧
    (mkStdParams { league := "nfl", season := some 2024 }).season = some 2024 := by
  have h := C7_season_omission { league := "nfl", season := some 2024 } exDirectEnv rfl
  exact ⟨h.1, h.2.2.1 2024 rfl (by decide)⟩

/-! ## Claim C8 -/

/-- C8: when every HTTP call raises (network error, timeout, non-2xx,
malformed JSON — all modelled as an absent oracle result) and the caches
miss, every strategy catches the exception at its boundary: for every
league, `fetch_standings` still returns — an empty list — with no cache
write and no API-counter increment; nothing propagates to the caller. -/
theorem C8_exception_containment :
    ∀ (cfg : LeagueConfig) (env : Env),
      env.rankingsNet = none → env.standingsNet = none → env.teamsNet = none →
      env.cache ("leaderboard_" ++ cfg.league) = none →
      env.cache (strategy_cache_key cfg.league) = none →
      (fetch_standings cfg env).standings = [] ∧
      (fetch_standings cfg env).writes = [] ∧
      (fetch_standings cfg env).apiCalls = 0 := by
  intro cfg env hr hs ht htop hstrat
  have hd : fetch_standings cfg env = dispatch_fetch cfg env := by
    simp only [fetch_standings, htop]
  rw [hd]
  unfold strategy_cache_key at hstrat
  by_cases h1 : cfg.league = "college-football"
  · rw [if_pos h1] at hstrat
    simp only [dispatch_fetch]
    rw [if_pos h1, fb_net_error hstrat hr]
    exact ⟨rfl, rfl, rfl⟩
  · rw [if_neg h1] at hstrat
    by_cases h2 : cfg.league = "mens-college-hockey"
    · rw [if_pos h2] at hstrat
      simp only [dispatch_fetch]
      rw [if_neg h1, if_pos h2, hockey_net_error hstrat hr]
      exact ⟨rfl, rfl, rfl⟩
    · rw [if_neg h2] at hstrat
      by_cases h3 : cfg.league = "mens-college-basketball" ∨
          cfg.league = "womens-college-basketball"
      · rw [if_pos h3] at hstrat
        simp only [dispatch_fetch]
        rw [if_neg h1, if_neg h2, if_pos h3, bb_net_error hstrat hr]
        exact ⟨rfl, rfl, rfl⟩
      · rw [if_neg h3] at hstrat
        by_cases h4 : cfg.league = "nfl" ∨ cfg.league = "mlb" ∨ cfg.league = "nhl" ∨
            cfg.league = "college-baseball"
        · rw [if_pos h4] at hstrat
          simp only [dispatch_fetch]
          rw [if_neg h1, if_neg h2, if_neg h3, if_pos h4, std_net_error hstrat hs]
          exact ⟨rfl, rfl, rfl⟩
        · rw [if_neg h4] at hstrat
          simp only [dispatch_fetch]
          rw [if_neg h1, if_neg h2, if_neg h3, if_neg h4, teams_net_error hstrat ht]
          exact ⟨rfl, rfl, rfl⟩

/-- C8 (witness): an MLB fetch in which the HTTP call raises: the caller
receives an empty list, nothing was cached, and the API counter did not
move. -/
theorem C8_witness :
    (fetch_standings { league := "mlb" } exAllFailEnv).standings = [] ∧
    (fetch_standings { league := "mlb" } exAllFailEnv).writes = [] ∧
    (fetch_standings { league := "mlb" } exAllFailEnv).apiCalls = 0 :=
  C8_exception_containment { league := "mlb" } exAllFailEnv rfl rfl rfl rfl (by decide)

/-! ## Claim C9 -/

/-- C9 (counterexample): the claim says every team dictionary produced by any
strategy carries a `record_summary` field.  The dictionaries built by
`_fetch_teams_data` (lines 476-484) have no `record_summary` key at all: a
one-team roster run produces a team with `ties = 0` whose `record_summary`
is absent instead of the claimed `"1-0"`. -/
theorem C9_counterexample :
    (fetch_teams_data { league := "nba" } exTeamsEnvOne).standings.map
      (fun e => (e.abbreviation, e.ties, e.record_summary)) = [("AAA", 0, none)] ∧
    (fetch_teams_data { league := "nba" } exTeamsEnvOne).standings.map
      (fun e => e.record_summary) ≠ [some "1-0"] := by
  refine ⟨by decide, by decide⟩

/-- C9 (amended): only the DirectStandings extraction derives
`record_summary` from the team's wins/losses/ties (`"W-L-T"` exactly when
`ties > 0`, else `"W-L"`); the rankings strategies carry the upstream
`recordSummary` string verbatim (default `"0-0"`), which is also what their
wins/losses/ties are parsed from; and TeamsPlusRecord dictionaries carry no
`record_summary` field at all. -/
theorem C9_record_summary_amended :
    (∀ (entry : StandEntry) (league_key : String) (e : TeamEntry),
      extract_team_standing entry league_key = some e →
      ∃ w l t : Int, e.wins = (w : Rat) ∧ e.losses = (l : Rat) ∧ e.ties = (t : Rat) ∧
        e.record_summary = some (if 0 < t then s!"{w}-{l}-{t}" else s!"{w}-{l}")) ∧
    (∀ (nm : String) (td : RankEntry),
      (rank_entry_to_team nm td).record_summary = some (td.recordSummary.getD "0-0") ∧
      (rank_entry_to_team nm td).wins =
        ((parse_record (td.recordSummary.getD "0-0")).1 : Rat)) ∧
    (∀ (team : RosterTeamInfo) (abbr : String) (rec : TeamRecordR),
      (teams_entry_of team abbr rec).record_summary = none) := by
  refine ⟨?_, ?_, ?_⟩
  · intro entry league_key e hx
    cases ht : entry.team with
    | none => simp [extract_team_standing, ht] at hx
    | some team_data =>
      simp only [extract_team_standing, ht, Option.some.injEq] at hx
      subst hx
      exact ⟨_, _, _, rfl, rfl, rfl, rfl⟩
  · intro nm td
    exact ⟨rfl, rfl⟩
  · intro team abbr rec
    rfl

/-- C9 (witness): the amended theorem applied to the concrete standings
entry `exEntryY`, whose extraction yields `record_summary = "0-0"` derived
from its zero wins, losses and ties. -/
theorem C9_witness :
    ∃ w l t : Int, exTeamEntryY.wins = (w : Rat) ∧ exTeamEntryY.losses = (l : Rat) ∧
      exTeamEntryY.ties = (t : Rat) ∧
      exTeamEntryY.record_summary =
        some (if 0 < t then s!"{w}-{l}-{t}" else s!"{w}-{l}") :=
  C9_record_summary_amended.1 exEntryY "nfl" exTeamEntryY (by decide)

end Leaderboard
